import Mathlib

/-!
Shallow embedding of `src/mssql_mcp_server.py` (sugiruu/mssql-mcp-server):
an MCP gateway that runs SQL against Microsoft SQL Server through one of
two client backends (pymssql = backend A, pyodbc = backend B).

Python values are modelled explicitly: environment variables are
`Option String` (`none` = variable absent), Python dicts that preserve
insertion order are association lists, SQL scalar values are a small
`Value` type, and exceptions are `Except` results.
-/

namespace MssqlMcp

/-- Scalar cell value as it travels through row normalization. -/
inductive Value where
  | str : String → Value
  | int : Int → Value
  | boolean : Bool → Value
  | null : Value
deriving DecidableEq, Repr

/-- Process environment relevant to the server: each field is one of the
environment variables the source reads, `none` when unset. -/
structure Env where
  MSSQL_SERVER : Option String := none
  MSSQL_DB : Option String := none
  MSSQL_AUTH : Option String := none
  MSSQL_USER : Option String := none
  MSSQL_PASSWORD : Option String := none
  MSSQL_PORT : Option String := none
  MSSQL_DRIVER : Option String := none
  MSSQL_ENCRYPT : Option String := none
  MSSQL_TRUST_CERT : Option String := none
  MSSQL_USE_PYMSSQL : Option String := none
  MSSQL_USE_PYODBC : Option String := none
deriving DecidableEq, Repr

/-- Python `str(value)` on an optional environment value: `str(None)` is the
text `"None"`. -/
def pyStr : Option String → String
  | none => "None"
  | some s => s

/-- Python `str.lower()` (character-wise ASCII lowering, which is all the
source's flag and auth-mode values need). -/
def pyLower (s : String) : String := ⟨s.data.map Char.toLower⟩

/-- Embeds `_flag_enabled` (line 16): `str(value).lower() in {"1", "true",
"yes", "on"}`. -/
def _flag_enabled (value : Option String) : Bool :=
  pyLower (pyStr value) ∈ ["1", "true", "yes", "on"]

/-- Embeds `use_pyodbc` (lines 20-26). `osName` stands for Python `os.name`
(`"nt"` on Windows). Returns `true` when backend B (pyodbc) is selected. -/
def use_pyodbc (env : Env) (osName : String) : Bool :=
  if _flag_enabled env.MSSQL_USE_PYMSSQL then false
  else if _flag_enabled env.MSSQL_USE_PYODBC then true
  else osName = "nt"

/-- Configuration failures raised before any connection attempt, abstracting
the source's `KeyError` / `ValueError` / `RuntimeError` taxonomy. -/
inductive ConfigError where
  | serverRequired
  | badAuthMode
  | credentialsRequired
  | backendUnavailable
deriving DecidableEq, Repr

/-- Python falsiness of an optional string: `not v` holds for `None` and for
the empty string. -/
def strFalsy : Option String → Bool
  | none => true
  | some s => s = ""

/-- Keyword arguments built for `pymssql.connect`. Dict keys that the source
adds only on some paths (`trusted`, `user`, `password`) are modelled as a
`Bool` defaulting to `false` and two `Option String` fields. -/
structure PymssqlArgs where
  server : String
  database : String
  charset : String
  login_timeout : Nat
  trusted : Bool := false
  user : Option String := none
  password : Option String := none
deriving DecidableEq, Repr

/-- Embeds `build_pymssql_args` (lines 30-57): `os.environ["MSSQL_SERVER"]`
raises when the variable is absent; database defaults to `"master"`; auth
mode defaults to `"sql"` and is lowercased; `windows`/`trusted` returns with
`trusted=True` and no credentials; any other non-`sql` mode is rejected;
under `sql`, falsy user or password is rejected. -/
def build_pymssql_args (env : Env) : Except ConfigError PymssqlArgs :=
  match env.MSSQL_SERVER with
  | none => Except.error ConfigError.serverRequired
  | some server =>
    let database := env.MSSQL_DB.getD "master"
    let auth_mode := pyLower (env.MSSQL_AUTH.getD "sql")
    if auth_mode = "windows" ∨ auth_mode = "trusted" then
      Except.ok { server := server, database := database, charset := "UTF-8",
                  login_timeout := 5, trusted := true }
    else if auth_mode ≠ "sql" then
      Except.error ConfigError.badAuthMode
    else if strFalsy env.MSSQL_USER ∨ strFalsy env.MSSQL_PASSWORD then
      Except.error ConfigError.credentialsRequired
    else
      Except.ok { server := server, database := database, charset := "UTF-8",
                  login_timeout := 5, user := env.MSSQL_USER,
                  password := env.MSSQL_PASSWORD }

/-- Embeds the `parts` list assembled by `build_pyodbc_connection_string`
(lines 60-97). `pyodbcAvailable` models `pyodbc is not None`. The
`DRIVER=...` part wraps the driver name in literal braces (the f-string plus
`.format` round trip of line 74 nets to one brace pair). `if port:` is
Python truthiness, so an empty-string port is ignored. -/
def build_pyodbc_parts (pyodbcAvailable : Bool) (env : Env) :
    Except ConfigError (List String) :=
  if ¬ pyodbcAvailable then Except.error ConfigError.backendUnavailable
  else
    match env.MSSQL_SERVER with
    | none => Except.error ConfigError.serverRequired
    | some server0 =>
      let port := env.MSSQL_PORT
      let database := env.MSSQL_DB.getD "master"
      let auth_mode := pyLower (env.MSSQL_AUTH.getD "sql")
      let driver := env.MSSQL_DRIVER.getD "ODBC Driver 18 for SQL Server"
      let server := if strFalsy port then server0 else server0 ++ "," ++ port.getD ""
      let base := ["DRIVER=\x7b" ++ driver ++ "\x7d",
                   "SERVER=" ++ server,
                   "DATABASE=" ++ database]
      let tail := ["Encrypt=" ++ env.MSSQL_ENCRYPT.getD "yes",
                   "TrustServerCertificate=" ++ env.MSSQL_TRUST_CERT.getD "yes"]
      if auth_mode = "windows" ∨ auth_mode = "trusted" then
        Except.ok (base ++ ["Trusted_Connection=yes"] ++ tail)
      else if auth_mode = "sql" then
        if strFalsy env.MSSQL_USER ∨ strFalsy env.MSSQL_PASSWORD then
          Except.error ConfigError.credentialsRequired
        else
          Except.ok (base ++ ["UID=" ++ env.MSSQL_USER.getD "",
                              "PWD=" ++ env.MSSQL_PASSWORD.getD ""] ++ tail)
      else Except.error ConfigError.badAuthMode

/-- Embeds `build_pyodbc_connection_string` (line 97): the parts joined by
`";"`. -/
def build_pyodbc_connection_string (pyodbcAvailable : Bool) (env : Env) :
    Except ConfigError String :=
  (build_pyodbc_parts pyodbcAvailable env).map (String.intercalate ";")

/-- Raw rows as fetched from a cursor: backend A (pymssql with `as_dict`)
yields keyed records, modelled as insertion-ordered association lists;
backend B (pyodbc) yields positional tuples. -/
inductive RawRows where
  | keyed : List (List (String × Value)) → RawRows
  | positional : List (List Value) → RawRows
deriving DecidableEq, Repr

/-- Embeds `fetch_columns_and_rows` (lines 111-121): empty fetch returns
`([], [])` before any shape test; keyed rows take columns from the first
row's keys and pass rows through; positional rows take columns from the
cursor description and zip each row against them (`zip` truncates at the
shorter list, as in Python). -/
def fetch_columns_and_rows (raw : RawRows) (description : List String) :
    List String × List (List (String × Value)) :=
  match raw with
  | RawRows.keyed rows =>
    match rows with
    | [] => ([], [])
    | first :: _ => (first.map Prod.fst, rows)
  | RawRows.positional rows =>
    match rows with
    | [] => ([], [])
    | _ :: _ => (description, rows.map fun row => description.zip row)

/-! Grouping of flat catalog rows (describe_indexes_and_foreign_keys).
The Python loops keep an insertion-ordered dict keyed by group name; the
dict is modelled as the ordered list of its descriptor values (each
descriptor stores its own key in its `name` field, exactly as the source
does). `groupStep` is one loop iteration, generic in the row, descriptor
and column-entry types; the three concrete loops instantiate it. -/

/-- One iteration of the grouping loop: on first occurrence of the key,
append a fresh descriptor (`mk`); on every occurrence, append the column
entry to the descriptor with that key. -/
def groupStep {R D C : Type} (key : R → String) (dname : D → String)
    (mk : String → R → D) (addCol : D → C → D) (col : R → C)
    (ds : List D) (r : R) : List D :=
  let k := key r
  let ds' := if ds.any fun d => dname d = k then ds else ds ++ [mk k r]
  ds'.map fun d => if dname d = k then addCol d (col r) else d

/-- The grouping loop over all rows, starting from the empty dict. -/
def groupRows {R D C : Type} (key : R → String) (dname : D → String)
    (mk : String → R → D) (addCol : D → C → D) (col : R → C)
    (rows : List R) : List D :=
  rows.foldl (groupStep key dname mk addCol col) []

/-- One flat row of the index catalog query (lines 177-192). -/
structure IndexRow where
  index_name : Option String
  type_desc : String
  is_primary_key : Bool
  is_unique : Bool
  is_included_column : Bool
  key_ordinal : Nat
  column_name : String
deriving DecidableEq, Repr

/-- One column entry of an index descriptor (lines 245-251). -/
structure IndexColumnRef where
  name : String
  key_ordinal : Nat
  is_included : Bool
deriving DecidableEq, Repr

/-- One grouped index descriptor (lines 238-244). -/
structure IndexDescriptor where
  name : String
  type : String
  is_primary_key : Bool
  is_unique : Bool
  columns : List IndexColumnRef
deriving DecidableEq, Repr

/-- Python `row["index_name"] or "(unnamed)"` (line 236): `None` and the
empty string are falsy, any other string is kept. -/
def effectiveIndexName : Option String → String
  | none => "(unnamed)"
  | some s => if s = "" then "(unnamed)" else s

/-- Column entry appended for each index row (lines 245-251). -/
def indexColumnOfRow (r : IndexRow) : IndexColumnRef :=
  { name := r.column_name, key_ordinal := r.key_ordinal,
    is_included := r.is_included_column }

/-- Embeds the index grouping loop (lines 234-251) followed by
`list(indexes.values())`. -/
def group_indexes (rows : List IndexRow) : List IndexDescriptor :=
  groupRows (fun r => effectiveIndexName r.index_name) IndexDescriptor.name
    (fun k r => { name := k, type := r.type_desc,
                  is_primary_key := r.is_primary_key,
                  is_unique := r.is_unique, columns := [] })
    (fun d c => { d with columns := d.columns ++ [c] })
    indexColumnOfRow rows

/-- One flat row of the outbound foreign-key query (lines 193-209). -/
structure FkOutboundRow where
  constraint_name : String
  column_name : String
  referenced_schema : String
  referenced_table : String
  referenced_column : String
deriving DecidableEq, Repr

/-- One `{column, references}` pair of a foreign-key descriptor. -/
structure FkColumnPair where
  column : String
  references : String
deriving DecidableEq, Repr

/-- One grouped outbound foreign-key descriptor (lines 259-270). -/
structure FkOutboundDescriptor where
  name : String
  target_schema : String
  target_table : String
  columns : List FkColumnPair
deriving DecidableEq, Repr

/-- Embeds the outbound foreign-key grouping loop (lines 255-270). -/
def group_fk_outbound (rows : List FkOutboundRow) : List FkOutboundDescriptor :=
  groupRows FkOutboundRow.constraint_name FkOutboundDescriptor.name
    (fun k r => { name := k, target_schema := r.referenced_schema,
                  target_table := r.referenced_table, columns := [] })
    (fun d c => { d with columns := d.columns ++ [c] })
    (fun r => { column := r.column_name, references := r.referenced_column })
    rows

/-- One flat row of the inbound foreign-key query (lines 210-226). -/
structure FkInboundRow where
  constraint_name : String
  referencing_schema : String
  referencing_table : String
  referencing_column : String
  referenced_column : String
deriving DecidableEq, Repr

/-- One grouped inbound foreign-key descriptor (lines 277-289). -/
structure FkInboundDescriptor where
  name : String
  source_schema : String
  source_table : String
  columns : List FkColumnPair
deriving DecidableEq, Repr

/-- Embeds the inbound foreign-key grouping loop (lines 274-289). -/
def group_fk_inbound (rows : List FkInboundRow) : List FkInboundDescriptor :=
  groupRows FkInboundRow.constraint_name FkInboundDescriptor.name
    (fun k r => { name := k, source_schema := r.referencing_schema,
                  source_table := r.referencing_table, columns := [] })
    (fun d c => { d with columns := d.columns ++ [c] })
    (fun r => { column := r.referencing_column, references := r.referenced_column })
    rows

/-- First-seen deduplication of a key sequence: the order in which an
insertion-ordered dict accumulates its keys. -/
def firstSeen (keys : List String) : List String :=
  keys.foldl (fun ns s => if s ∈ ns then ns else ns ++ [s]) []

/-- Column lookup in the modelled dict: the column list of the first
descriptor carrying key `n`, or `[]` when none does. -/
def colsOf {D C : Type} (dname : D → String) (cols : D → List C)
    (ds : List D) (n : String) : List C :=
  match ds.find? fun d => dname d = n with
  | some d => cols d
  | none => []

/-! Operation models. Each public operation is modelled as a function from
the backend's observable behaviour (what `cur.execute` / `fetchall` would
yield, or the exception it would raise) to the operation's result together
with the trace of connection events it performs. -/

/-- Observable connection events, in the order they happen. -/
inductive Event where
  | openConn
  | execute
  | commit
  | release
deriving DecidableEq, Repr

/-- Cursor state after a successful `execute`: the statement's result
description (if any), the fetched raw rows, and the backend-reported
rowcount. -/
structure CursorResult where
  description : Option (List String)
  raw : RawRows
  rowcount : Int
deriving Repr

/-- Modelled from the spec: the `with open_connection() as conn:` scope.
The connection objects' context-manager exit is library code outside this
repository; per the spec's Connection Provider contract the scope opens the
connection, runs its body, and releases the connection on every exit path,
exceptional or not, exactly once. -/
def withConnection {α : Type} (body : Except String α × List Event) :
    Except String α × List Event :=
  (body.1, Event.openConn :: (body.2 ++ [Event.release]))

/-- Result contract of `run_query`: tabular rows or an affected-row count. -/
inductive QueryResult where
  | tabular : List String → List (List (String × Value)) → QueryResult
  | writeResult : Int → QueryResult
deriving DecidableEq, Repr

/-- Body of `run_query` (lines 134-140): execute, then branch on
`cur.description`; a present description normalizes and returns
`{columns, rows}` with no commit, an absent one commits and returns
`{rows_affected}`. `exec` is the backend outcome of `cur.execute(sql)`. -/
def run_query_body (exec : Except String CursorResult) :
    Except String QueryResult × List Event :=
  match exec with
  | Except.error e => (Except.error e, [Event.execute])
  | Except.ok cur =>
    match cur.description with
    | some desc =>
      let fetched := fetch_columns_and_rows cur.raw desc
      (Except.ok (QueryResult.tabular fetched.1 fetched.2), [Event.execute])
    | none =>
      (Except.ok (QueryResult.writeResult cur.rowcount),
       [Event.execute, Event.commit])

/-- Embeds `run_query` (lines 128-140): the body inside the connection
scope. -/
def run_query (exec : Except String CursorResult) :
    Except String QueryResult × List Event :=
  withConnection (run_query_body exec)

/-- Python `row[k]` on a keyed row: the value, or a `KeyError`. -/
def rowGet (row : List (String × Value)) (k : String) : Except String Value :=
  match row.find? fun p => p.fst = k with
  | some p => Except.ok p.snd
  | none => Except.error ("KeyError: " ++ k)

/-- One entry of `describe_table`'s response (lines 160-168). -/
structure ColumnDescriptor where
  column : Value
  type : Value
  nullable : Bool
  length : Value
deriving DecidableEq, Repr

/-- Maps one keyed catalog row to a `ColumnDescriptor` (lines 161-166);
`nullable` is the comparison `row["IS_NULLABLE"] == "YES"`. -/
def describe_table_entry (row : List (String × Value)) :
    Except String ColumnDescriptor := do
  let c ← rowGet row "COLUMN_NAME"
  let t ← rowGet row "DATA_TYPE"
  let n ← rowGet row "IS_NULLABLE"
  let l ← rowGet row "CHARACTER_MAXIMUM_LENGTH"
  pure { column := c, type := t, nullable := decide (n = Value.str "YES"),
         length := l }

/-- Body of `describe_table` (lines 157-168): execute the catalog query,
normalize, map each row to a `ColumnDescriptor`. -/
def describe_table_body (exec : Except String CursorResult) :
    Except String (List ColumnDescriptor) × List Event :=
  match exec with
  | Except.error e => (Except.error e, [Event.execute])
  | Except.ok cur =>
    let fetched := fetch_columns_and_rows cur.raw (cur.description.getD [])
    (fetched.2.mapM describe_table_entry, [Event.execute])

/-- Embeds `describe_table` (lines 144-168). -/
def describe_table (exec : Except String CursorResult) :
    Except String (List ColumnDescriptor) × List Event :=
  withConnection (describe_table_body exec)

/-- Backend outcomes of the three catalog statements that
`describe_indexes_and_foreign_keys` executes, already decoded to typed
rows. -/
structure IndexesQueryOutcome where
  indexExec : Except String (List IndexRow)
  outboundExec : Except String (List FkOutboundRow)
  inboundExec : Except String (List FkInboundRow)

/-- Response shape of `describe_indexes_and_foreign_keys` (lines 291-295). -/
structure IndexesAndFks where
  indexes : List IndexDescriptor
  foreign_keys_outbound : List FkOutboundDescriptor
  foreign_keys_inbound : List FkInboundDescriptor
deriving DecidableEq, Repr

/-- Body of `describe_indexes_and_foreign_keys` (lines 230-295): the three
statements run in sequence on the one cursor; a failure in any aborts the
rest and propagates. -/
def describe_indexes_body (o : IndexesQueryOutcome) :
    Except String IndexesAndFks × List Event :=
  match o.indexExec with
  | Except.error e => (Except.error e, [Event.execute])
  | Except.ok irows =>
    match o.outboundExec with
    | Except.error e => (Except.error e, [Event.execute, Event.execute])
    | Except.ok orows =>
      match o.inboundExec with
      | Except.error e =>
        (Except.error e, [Event.execute, Event.execute, Event.execute])
      | Except.ok inrows =>
        (Except.ok { indexes := group_indexes irows,
                     foreign_keys_outbound := group_fk_outbound orows,
                     foreign_keys_inbound := group_fk_inbound inrows },
         [Event.execute, Event.execute, Event.execute])

/-- Embeds `describe_indexes_and_foreign_keys` (lines 172-295). -/
def describe_indexes_and_foreign_keys (o : IndexesQueryOutcome) :
    Except String IndexesAndFks × List Event :=
  withConnection (describe_indexes_body o)

/-- Trace discipline of one operation call: the connection is opened first,
released exactly once, and the release is the last thing that happens. -/
def releasedExactlyOnceLast (t : List Event) : Prop :=
  t.count Event.release = 1 ∧ t.getLast? = some Event.release ∧
    t.head? = some Event.openConn

/-! Generic lemmas about the grouping loop. `dname` reads a descriptor's
key, `cols` its accumulated column list; the four hypotheses say that `mk`
builds a fresh descriptor with the given key and no columns and that
`addCol` appends one column without touching the key. -/

section GroupingLemmas

variable {R D C : Type} (key : R → String) (dname : D → String)
  (mk : String → R → D) (addCol : D → C → D) (col : R → C) (cols : D → List C)

theorem map_dname_update
    (haddname : ∀ d c, dname (addCol d c) = dname d)
    (k : String) (c : C) (ds : List D) :
    (ds.map fun d => if dname d = k then addCol d c else d).map dname =
      ds.map dname := by
  induction ds with
  | nil => rfl
  | cons d t ih =>
    simp only [List.map_cons, ih]
    by_cases h : dname d = k <;> simp [h, haddname]

theorem groupStep_map_dname
    (hmkname : ∀ k r, dname (mk k r) = k)
    (haddname : ∀ d c, dname (addCol d c) = dname d)
    (ds : List D) (r : R) :
    (groupStep key dname mk addCol col ds r).map dname =
      if key r ∈ ds.map dname then ds.map dname
      else ds.map dname ++ [key r] := by
  by_cases hmem : key r ∈ ds.map dname
  · have hany : (ds.any fun d => decide (dname d = key r)) = true := by
      rw [List.any_eq_true]
      rcases List.mem_map.mp hmem with ⟨d, hd, hdn⟩
      exact ⟨d, hd, by simpa using hdn⟩
    simp only [groupStep, hany, if_true,
      map_dname_update dname addCol haddname, if_pos hmem]
  · have hany : (ds.any fun d => decide (dname d = key r)) = false := by
      rw [List.any_eq_false]
      intro d hd
      simp only [decide_eq_true_eq]
      exact fun hdn => hmem (List.mem_map.mpr ⟨d, hd, hdn⟩)
    simp only [groupStep, hany, Bool.false_eq_true, if_false,
      map_dname_update dname addCol haddname, if_neg hmem, List.map_append,
      List.map_cons, List.map_nil, hmkname]
    simp [haddname, hmkname]

theorem foldl_groupStep_map_dname
    (hmkname : ∀ k r, dname (mk k r) = k)
    (haddname : ∀ d c, dname (addCol d c) = dname d)
    (rows : List R) (acc : List D) :
    ((rows.foldl (groupStep key dname mk addCol col) acc).map dname) =
      rows.foldl (fun ns r => if key r ∈ ns then ns else ns ++ [key r])
        (acc.map dname) := by
  induction rows generalizing acc with
  | nil => rfl
  | cons r t ih =>
    simp only [List.foldl_cons, ih,
      groupStep_map_dname key dname mk addCol col hmkname haddname]

theorem groupRows_map_dname
    (hmkname : ∀ k r, dname (mk k r) = k)
    (haddname : ∀ d c, dname (addCol d c) = dname d)
    (rows : List R) :
    (groupRows key dname mk addCol col rows).map dname =
      firstSeen (rows.map key) := by
  rw [groupRows, firstSeen, List.foldl_map,
    foldl_groupStep_map_dname key dname mk addCol col hmkname haddname]
  rfl

theorem groupStep_eq_of_mem (ds : List D) (r : R)
    (hmem : key r ∈ ds.map dname) :
    groupStep key dname mk addCol col ds r =
      ds.map fun d => if dname d = key r then addCol d (col r) else d := by
  have hany : (ds.any fun d => decide (dname d = key r)) = true := by
    rw [List.any_eq_true]
    rcases List.mem_map.mp hmem with ⟨d, hd, hdn⟩
    exact ⟨d, hd, by simpa using hdn⟩
  simp [groupStep, hany]

theorem groupStep_eq_of_not_mem (ds : List D) (r : R)
    (hmem : key r ∉ ds.map dname) :
    groupStep key dname mk addCol col ds r =
      (ds ++ [mk (key r) r]).map
        fun d => if dname d = key r then addCol d (col r) else d := by
  have hany : (ds.any fun d => decide (dname d = key r)) = false := by
    rw [List.any_eq_false]
    intro d hd
    simp only [decide_eq_true_eq]
    exact fun hdn => hmem (List.mem_map.mpr ⟨d, hd, hdn⟩)
  simp [groupStep, hany]

theorem colsOf_map_update (haddname : ∀ d c, dname (addCol d c) = dname d)
    (haddcols : ∀ d c, cols (addCol d c) = cols d ++ [c])
    (l : List D) (k : String) (c : C) (n : String) :
    colsOf dname cols
        (l.map fun d => if dname d = k then addCol d c else d) n =
      match l.find? fun d => decide (dname d = n) with
      | some d => if k = n then cols d ++ [c] else cols d
      | none => [] := by
  have hpres : ∀ d, dname (if dname d = k then addCol d c else d) = dname d := by
    intro d; by_cases h : dname d = k <;> simp [h, haddname]
  have hcomp : ((fun d => decide (dname d = n)) ∘
      fun d => if dname d = k then addCol d c else d) =
        fun d => decide (dname d = n) := by
    funext d
    simp only [Function.comp_apply, hpres d]
  rw [colsOf, List.find?_map, hcomp]
  cases hds : l.find? fun d => decide (dname d = n) with
  | none => rfl
  | some d =>
    have hdn : dname d = n := by simpa using List.find?_some hds
    simp only [Option.map_some']
    by_cases hkn : k = n
    · rw [if_pos (by rw [hdn, hkn]), haddcols, if_pos hkn]
    · rw [if_neg (by rw [hdn]; exact fun h => hkn h.symm), if_neg hkn]

theorem colsOf_groupStep
    (hmkname : ∀ k r, dname (mk k r) = k)
    (hmkcols : ∀ k r, cols (mk k r) = [])
    (haddname : ∀ d c, dname (addCol d c) = dname d)
    (haddcols : ∀ d c, cols (addCol d c) = cols d ++ [c])
    (ds : List D) (r : R) (n : String) :
    colsOf dname cols (groupStep key dname mk addCol col ds r) n =
      colsOf dname cols ds n ++ if key r = n then [col r] else [] := by
  by_cases hmem : key r ∈ ds.map dname
  · rw [groupStep_eq_of_mem key dname mk addCol col ds r hmem,
      colsOf_map_update dname addCol cols haddname haddcols]
    cases hds : ds.find? fun d => decide (dname d = n) with
    | none =>
      have hne : ¬ key r = n := by
        intro hkn
        rcases List.mem_map.mp hmem with ⟨d, hd, hdn⟩
        exact absurd (by simp [hdn, hkn] : decide (dname d = n) = true)
          (by simpa using List.find?_eq_none.mp hds d hd)
      simp [colsOf, hds, hne]
    | some d =>
      simp only [colsOf, hds]
      by_cases hkn : key r = n <;> simp [hkn]
  · rw [groupStep_eq_of_not_mem key dname mk addCol col ds r hmem,
      colsOf_map_update dname addCol cols haddname haddcols,
      List.find?_append]
    by_cases hkn : key r = n
    · have hds : (ds.find? fun d => decide (dname d = n)) = none := by
        rw [List.find?_eq_none]
        intro d hd
        simp only [decide_eq_true_eq]
        exact fun hdn => hmem (List.mem_map.mpr ⟨d, hd, hdn.trans hkn.symm⟩)
      rw [hds, Option.none_or]
      have hmkfind : (([mk (key r) r] : List D).find?
          fun d => decide (dname d = n)) = some (mk (key r) r) := by
        simp [List.find?_cons, hmkname, hkn]
      rw [hmkfind]
      simp [colsOf, hds, hmkname, hmkcols, hkn]
    · have hmknone : (([mk (key r) r] : List D).find?
          fun d => decide (dname d = n)) = none := by
        simp [List.find?_cons, hmkname, hkn]
      rw [hmknone]
      cases hfd : ds.find? fun d => decide (dname d = n) with
      | none => simp [colsOf, hfd, hkn]
      | some d => simp [colsOf, hfd, hkn, Option.or_some]

theorem colsOf_foldl_groupStep
    (hmkname : ∀ k r, dname (mk k r) = k)
    (hmkcols : ∀ k r, cols (mk k r) = [])
    (haddname : ∀ d c, dname (addCol d c) = dname d)
    (haddcols : ∀ d c, cols (addCol d c) = cols d ++ [c])
    (rows : List R) (acc : List D) (n : String) :
    colsOf dname cols (rows.foldl (groupStep key dname mk addCol col) acc) n =
      colsOf dname cols acc n ++
        (rows.filter fun r => decide (key r = n)).map col := by
  induction rows generalizing acc with
  | nil => simp
  | cons r t ih =>
    simp only [List.foldl_cons, ih,
      colsOf_groupStep key dname mk addCol col cols hmkname hmkcols haddname
        haddcols, List.filter_cons]
    by_cases h : key r = n <;> simp [h]

theorem find?_dname_eq_self {D : Type} (dname : D → String) (ds : List D)
    (hnd : (ds.map dname).Nodup) (d : D) (hd : d ∈ ds) :
    (ds.find? fun x => decide (dname x = dname d)) = some d := by
  induction ds with
  | nil => cases hd
  | cons a t ih =>
    rcases List.mem_cons.mp hd with rfl | hdt
    · simp
    · have hmemt : dname d ∈ t.map dname := List.mem_map.mpr ⟨d, hdt, rfl⟩
      have hne : ¬ dname a = dname d := by
        intro h
        exact (List.nodup_cons.mp (by simpa using hnd)).1 (h ▸ hmemt)
      rw [List.find?_cons_of_neg _ (by simp [hne])]
      exact ih (List.nodup_cons.mp (by simpa using hnd)).2 hdt

theorem firstSeen_loop_nodup (keys : List String) (acc : List String)
    (h : acc.Nodup) :
    (keys.foldl (fun ns s => if s ∈ ns then ns else ns ++ [s]) acc).Nodup := by
  induction keys generalizing acc with
  | nil => exact h
  | cons s t ih =>
    simp only [List.foldl_cons]
    by_cases hs : s ∈ acc
    · simpa [hs] using ih acc h
    · have hacc : (acc ++ [s]).Nodup := by
        simp [List.nodup_append, h, hs, List.disjoint_singleton]
      simpa [hs] using ih _ hacc

theorem firstSeen_nodup (keys : List String) : (firstSeen keys).Nodup :=
  firstSeen_loop_nodup keys [] List.nodup_nil

theorem groupRows_columns
    (hmkname : ∀ k r, dname (mk k r) = k)
    (hmkcols : ∀ k r, cols (mk k r) = [])
    (haddname : ∀ d c, dname (addCol d c) = dname d)
    (haddcols : ∀ d c, cols (addCol d c) = cols d ++ [c])
    (rows : List R) (d : D)
    (hd : d ∈ groupRows key dname mk addCol col rows) :
    cols d = (rows.filter fun r => decide (key r = dname d)).map col := by
  have hnd : ((groupRows key dname mk addCol col rows).map dname).Nodup := by
    rw [groupRows_map_dname key dname mk addCol col hmkname haddname]
    exact firstSeen_nodup _
  have hfind := find?_dname_eq_self dname _ hnd d hd
  have hcols := colsOf_foldl_groupStep key dname mk addCol col cols hmkname
    hmkcols haddname haddcols rows [] (dname d)
  rw [show rows.foldl (groupStep key dname mk addCol col) [] =
        groupRows key dname mk addCol col rows from rfl] at hcols
  rw [colsOf, hfind] at hcols
  simpa using hcols

end GroupingLemmas

/-! Claim theorems. -/

/-- C1: Cross-backend normalization equivalence: for every non-empty
sequence of raw rows carrying the same underlying data (a column list and,
per row, one value per column), the keyed-row path (backend A dict rows)
and the positional-row-plus-description path (backend B tuples zipped with
description-derived column names) of `fetch_columns_and_rows` produce
identical `(columns, rows)` output. -/
theorem c1_cross_backend_normalization_equivalence
    (cols : List String) (vals : List (List Value))
    (hne : vals ≠ [])
    (hlen : ∀ v ∈ vals, v.length = cols.length) :
    fetch_columns_and_rows (RawRows.keyed (vals.map fun v => cols.zip v)) cols =
      fetch_columns_and_rows (RawRows.positional vals) cols := by
  cases vals with
  | nil => exact absurd rfl hne
  | cons v vs =>
    have hle : cols.length ≤ v.length :=
      le_of_eq (hlen v (List.mem_cons_self v vs)).symm
    simp only [fetch_columns_and_rows, List.map_cons]
    rw [List.map_fst_zip cols v hle]

/-- Witness for C1 at a concrete two-column, one-row input. -/
theorem c1_witness :
    (([[Value.int 1, Value.str "x"]] : List (List Value)) ≠ [] ∧
      ∀ v ∈ ([[Value.int 1, Value.str "x"]] : List (List Value)),
        v.length = (["a", "b"] : List String).length) ∧
    fetch_columns_and_rows
        (RawRows.keyed (([[Value.int 1, Value.str "x"]] :
          List (List Value)).map fun v => ["a", "b"].zip v)) ["a", "b"] =
      fetch_columns_and_rows
        (RawRows.positional [[Value.int 1, Value.str "x"]]) ["a", "b"] :=
  ⟨⟨by decide, by decide⟩,
    c1_cross_backend_normalization_equivalence ["a", "b"]
      [[Value.int 1, Value.str "x"]] (by decide) (by decide)⟩

/-- C2 counterexample: with zero rows on the positional path and a
description carrying one column name, `fetch_columns_and_rows` does not
return that column name; it returns `([], [])` because of the early
`if not rows` return, so the claim as stated is false. -/
theorem c2_counterexample :
    fetch_columns_and_rows (RawRows.positional []) ["COLUMN_NAME"] ≠
      ((["COLUMN_NAME"] : List String),
        ([] : List (List (String × Value)))) := by
  decide

/-- C2 amended: when zero rows are fetched, `fetch_columns_and_rows`
returns empty columns and empty rows on BOTH backend paths, even when a
result description exists; the description only determines the column
names when at least one positional row is present. -/
theorem c2_zero_rows_empty_columns (description : List String) :
    fetch_columns_and_rows (RawRows.positional []) description = ([], []) ∧
    fetch_columns_and_rows (RawRows.keyed []) description = ([], []) :=
  ⟨rfl, rfl⟩

/-- C4: Backend-selection precedence: the explicit backend-off flag
(`MSSQL_USE_PYMSSQL`), when set, selects backend A (pymssql) regardless of
the other flag; otherwise the explicit backend-on flag
(`MSSQL_USE_PYODBC`), when set, selects backend B (pyodbc); otherwise the
platform default decides (`os.name == "nt"` selects backend B, any other
platform backend A). -/
theorem c4_backend_selection_precedence (env : Env) (osName : String) :
    (_flag_enabled env.MSSQL_USE_PYMSSQL = true →
      use_pyodbc env osName = false) ∧
    (_flag_enabled env.MSSQL_USE_PYMSSQL = false →
      _flag_enabled env.MSSQL_USE_PYODBC = true →
      use_pyodbc env osName = true) ∧
    (_flag_enabled env.MSSQL_USE_PYMSSQL = false →
      _flag_enabled env.MSSQL_USE_PYODBC = false →
      use_pyodbc env osName = decide (osName = "nt")) := by
  refine ⟨fun h1 => ?_, fun h1 h2 => ?_, fun h1 h2 => ?_⟩ <;>
    simp [use_pyodbc, h1]
  · simp [h2]
  · simp [h2]

/-- Witness for C4: with both override flags set, the off flag wins and
backend A is selected even on Windows. -/
theorem c4_witness :
    use_pyodbc
      { MSSQL_USE_PYMSSQL := some "1", MSSQL_USE_PYODBC := some "1" }
      "nt" = false :=
  (c4_backend_selection_precedence
    { MSSQL_USE_PYMSSQL := some "1", MSSQL_USE_PYODBC := some "1" } "nt").1
    (by decide)

/-- C10: Override-flag interpretation: a backend-selection override flag
counts as set exactly when its value, lowercased, is one of `"1"`,
`"true"`, `"yes"`, `"on"`; any other value, the empty string, and an
absent variable leave it unset, and an unset value such as `"0"` or
`"off"` merely skips that tier instead of cancelling the others. -/
theorem c10_flag_interpretation :
    (∀ v : String, _flag_enabled (some v) = true ↔
        (pyLower v = "1" ∨ pyLower v = "true" ∨ pyLower v = "yes" ∨
          pyLower v = "on")) ∧
    _flag_enabled none = false ∧
    (∀ (env : Env) (osName : String),
        use_pyodbc { env with MSSQL_USE_PYMSSQL := some "0" } osName =
          use_pyodbc { env with MSSQL_USE_PYMSSQL := none } osName) ∧
    (∀ (env : Env) (osName : String),
        use_pyodbc { env with MSSQL_USE_PYODBC := some "off" } osName =
          use_pyodbc { env with MSSQL_USE_PYODBC := none } osName) := by
  have h0 : _flag_enabled (some "0") = false := by decide
  have hoff : _flag_enabled (some "off") = false := by decide
  have hnone : _flag_enabled none = false := by decide
  refine ⟨fun v => ?_, hnone, fun env osName => ?_, fun env osName => ?_⟩
  · simp [_flag_enabled, pyStr]
  · simp [use_pyodbc, h0, hnone]
  · simp [use_pyodbc, hoff, hnone]

/-- Witness for C10: `"TRUE"` counts as set; the off flag set to `"0"`
behaves the same as the off flag being absent, so the on flag still wins. -/
theorem c10_witness :
    _flag_enabled (some "TRUE") = true ∧
    use_pyodbc
        { MSSQL_USE_PYMSSQL := some "0", MSSQL_USE_PYODBC := some "1" }
        "posix" =
      use_pyodbc { MSSQL_USE_PYODBC := some "1" } "posix" :=
  ⟨(c10_flag_interpretation.1 "TRUE").mpr (Or.inr (Or.inl (by decide))),
    c10_flag_interpretation.2.2.1 { MSSQL_USE_PYODBC := some "1" } "posix"⟩

/-- C5: Release-on-every-exit-path: for each of the three public
operations, the connection opened at the start of the call is released
before the operation returns or before any error propagates to the caller,
including when statement execution raises mid-way; release happens exactly
once per call (the release event is the trace's last event and occurs
exactly once, on success and on every failure). -/
theorem c5_release_on_every_exit_path :
    (∀ exec, releasedExactlyOnceLast (run_query exec).2) ∧
    (∀ exec, releasedExactlyOnceLast (describe_table exec).2) ∧
    (∀ o, releasedExactlyOnceLast (describe_indexes_and_foreign_keys o).2) := by
  refine ⟨fun exec => ?_, fun exec => ?_, fun o => ?_⟩
  · cases exec with
    | error e => exact ⟨rfl, rfl, rfl⟩
    | ok cur =>
      obtain ⟨dopt, raw, rc⟩ := cur
      cases dopt <;> exact ⟨rfl, rfl, rfl⟩
  · cases exec with
    | error e => exact ⟨rfl, rfl, rfl⟩
    | ok cur => exact ⟨rfl, rfl, rfl⟩
  · obtain ⟨ie, oe, ine⟩ := o
    cases ie <;> cases oe <;> cases ine <;> exact ⟨rfl, rfl, rfl⟩

/-- C6: run_query branching and commit discipline: if a result description
is present, `run_query` returns `{columns, rows}` and never commits; if no
result description is present, it commits and returns `{rows_affected}`
with the backend-reported rowcount, committing exactly once. -/
theorem c6_run_query_branching :
    (∀ (cur : CursorResult) (desc : List String),
        cur.description = some desc →
        (run_query (Except.ok cur)).1 =
          Except.ok (QueryResult.tabular
            (fetch_columns_and_rows cur.raw desc).1
            (fetch_columns_and_rows cur.raw desc).2) ∧
        Event.commit ∉ (run_query (Except.ok cur)).2) ∧
    (∀ cur : CursorResult, cur.description = none →
        (run_query (Except.ok cur)).1 =
          Except.ok (QueryResult.writeResult cur.rowcount) ∧
        (run_query (Except.ok cur)).2.count Event.commit = 1) := by
  constructor
  · intro cur desc h
    obtain ⟨dopt, raw, rc⟩ := cur
    cases dopt with
    | none => simp at h
    | some d =>
      have hd : d = desc := by simpa using h
      subst hd
      refine ⟨rfl, ?_⟩
      show Event.commit ∉ [Event.openConn, Event.execute, Event.release]
      decide
  · intro cur h
    obtain ⟨dopt, raw, rc⟩ := cur
    cases dopt with
    | none => exact ⟨rfl, rfl⟩
    | some d => simp at h

/-- Witness for C6 at one row-returning and one non-row-returning cursor. -/
theorem c6_witness :
    ((run_query (Except.ok
        ⟨some ["a"], RawRows.positional [[Value.int 1]], 0⟩)).1 =
      Except.ok (QueryResult.tabular
        (fetch_columns_and_rows (RawRows.positional [[Value.int 1]]) ["a"]).1
        (fetch_columns_and_rows
          (RawRows.positional [[Value.int 1]]) ["a"]).2) ∧
      Event.commit ∉ (run_query (Except.ok
        ⟨some ["a"], RawRows.positional [[Value.int 1]], 0⟩)).2) ∧
    ((run_query (Except.ok ⟨none, RawRows.positional [], 3⟩)).1 =
      Except.ok (QueryResult.writeResult 3) ∧
      (run_query (Except.ok
        ⟨none, RawRows.positional [], 3⟩)).2.count Event.commit = 1) :=
  ⟨c6_run_query_branching.1 ⟨some ["a"], RawRows.positional [[Value.int 1]], 0⟩
      ["a"] rfl,
    c6_run_query_branching.2 ⟨none, RawRows.positional [], 3⟩ rfl⟩

/-- C7: Credential requirement by auth mode: with a server configured,
`sql` auth mode with a missing or empty username or password fails with a
`ConfigError` before any connection attempt, on both backend builders;
`windows`/`trusted` auth mode succeeds without credentials and the produced
connection arguments carry none (pymssql gets `trusted` and no
user/password keys; the pyodbc connection string gets
`Trusted_Connection=yes` and no UID/PWD parts). -/
theorem c7_credentials_by_auth_mode :
    (∀ (env : Env) (server : String),
        env.MSSQL_SERVER = some server →
        pyLower (env.MSSQL_AUTH.getD "sql") = "sql" →
        (strFalsy env.MSSQL_USER = true ∨ strFalsy env.MSSQL_PASSWORD = true) →
        build_pymssql_args env =
          Except.error ConfigError.credentialsRequired ∧
        build_pyodbc_parts true env =
          Except.error ConfigError.credentialsRequired) ∧
    (∀ (env : Env) (server : String),
        env.MSSQL_SERVER = some server →
        (pyLower (env.MSSQL_AUTH.getD "sql") = "windows" ∨
          pyLower (env.MSSQL_AUTH.getD "sql") = "trusted") →
        build_pymssql_args env =
          Except.ok { server := server, database := env.MSSQL_DB.getD "master",
                      charset := "UTF-8", login_timeout := 5, trusted := true,
                      user := none, password := none } ∧
        build_pyodbc_parts true env =
          Except.ok
            (["DRIVER=\x7b" ++
                env.MSSQL_DRIVER.getD "ODBC Driver 18 for SQL Server" ++
                "\x7d",
              "SERVER=" ++ (if strFalsy env.MSSQL_PORT then server
                else server ++ "," ++ env.MSSQL_PORT.getD ""),
              "DATABASE=" ++ env.MSSQL_DB.getD "master"] ++
             ["Trusted_Connection=yes"] ++
             ["Encrypt=" ++ env.MSSQL_ENCRYPT.getD "yes",
              "TrustServerCertificate=" ++ env.MSSQL_TRUST_CERT.getD "yes"])) := by
  constructor
  · intro env server hs hauth hcreds
    have hns : ¬ (pyLower (env.MSSQL_AUTH.getD "sql") = "windows" ∨
        pyLower (env.MSSQL_AUTH.getD "sql") = "trusted") := by
      rw [hauth]; decide
    have hnn : ¬ pyLower (env.MSSQL_AUTH.getD "sql") ≠ "sql" := by
      simp [hauth]
    constructor
    · simp only [build_pymssql_args, hs]
      rw [if_neg hns, if_neg hnn, if_pos hcreds]
    · simp [build_pyodbc_parts, hs, hauth, hcreds]
  · intro env server hs hauth
    constructor
    · simp only [build_pymssql_args, hs]
      rw [if_pos hauth]
    · rcases hauth with h | h <;> simp [build_pyodbc_parts, hs, h]

/-- Witness for C7: default auth mode with no credentials fails; windows
auth mode with no credentials succeeds with a credential-free plan. -/
theorem c7_witness :
    build_pymssql_args { MSSQL_SERVER := some "h" } =
        Except.error ConfigError.credentialsRequired ∧
    build_pymssql_args
        { MSSQL_SERVER := some "h", MSSQL_AUTH := some "Windows" } =
      Except.ok { server := "h", database := "master", charset := "UTF-8",
                  login_timeout := 5, trusted := true, user := none,
                  password := none } :=
  ⟨(c7_credentials_by_auth_mode.1 { MSSQL_SERVER := some "h" } "h" rfl
      (by decide) (Or.inl rfl)).1,
    (c7_credentials_by_auth_mode.2
      { MSSQL_SERVER := some "h", MSSQL_AUTH := some "Windows" } "h" rfl
      (Or.inl (by decide))).1⟩

/-- C8: Mandatory server host: when the server environment variable is
absent, configuration resolution fails with the server-required
`ConfigError` on both backend builders, before any connection attempt. -/
theorem c8_server_required (env : Env) (h : env.MSSQL_SERVER = none) :
    build_pymssql_args env = Except.error ConfigError.serverRequired ∧
    build_pyodbc_parts true env = Except.error ConfigError.serverRequired ∧
    build_pyodbc_connection_string true env =
      Except.error ConfigError.serverRequired := by
  refine ⟨?_, ?_, ?_⟩ <;>
    simp [build_pymssql_args, build_pyodbc_parts,
      build_pyodbc_connection_string, Except.map, h]

/-- Witness for C8 at the empty environment. -/
theorem c8_witness :
    build_pymssql_args {} = Except.error ConfigError.serverRequired ∧
    build_pyodbc_parts true {} = Except.error ConfigError.serverRequired ∧
    build_pyodbc_connection_string true {} =
      Except.error ConfigError.serverRequired :=
  c8_server_required {} rfl

theorem foldl_firstSeen_absorbed (u : List String) (acc : List String)
    (hmem : ∀ x ∈ u, x ∈ acc) :
    u.foldl (fun ns s => if s ∈ ns then ns else ns ++ [s]) acc = acc := by
  induction u generalizing acc with
  | nil => rfl
  | cons a t ih =>
    simp only [List.foldl_cons, if_pos (hmem a (List.mem_cons_self a t))]
    exact ih acc fun x hx => hmem x (List.mem_cons_of_mem a hx)

theorem firstSeen_const (keys : List String) (c : String) (hne : keys ≠ [])
    (hall : ∀ s ∈ keys, s = c) : firstSeen keys = [c] := by
  cases keys with
  | nil => exact absurd rfl hne
  | cons s t =>
    have hs : s = c := hall s (List.mem_cons_self s t)
    subst hs
    rw [firstSeen]
    simp only [List.foldl_cons, if_neg (List.not_mem_nil s), List.nil_append]
    exact foldl_firstSeen_absorbed t [s] fun x hx => by
      have hx' := hall x (List.mem_cons_of_mem s hx)
      simp [hx']

/-- C3: Order-preserving grouping: for every sequence of flat catalog rows
(index rows or foreign-key rows in either direction), the grouping loop
yields a descriptor list ordered by first occurrence of the group key, each
descriptor's column list holding exactly that key's column entries in
row-arrival order; in particular rows
`[(idx="A",col="x"), (idx="B",col="y"), (idx="A",col="z")]` yield
`[A{columns:[x,z]}, B{columns:[y]}]`. -/
theorem c3_order_preserving_grouping :
    (∀ rows : List IndexRow,
        (group_indexes rows).map IndexDescriptor.name =
          firstSeen (rows.map fun r => effectiveIndexName r.index_name) ∧
        ∀ d ∈ group_indexes rows,
          d.columns =
            (rows.filter fun r =>
              decide (effectiveIndexName r.index_name = d.name)).map
              indexColumnOfRow) ∧
    (∀ rows : List FkOutboundRow,
        (group_fk_outbound rows).map FkOutboundDescriptor.name =
          firstSeen (rows.map FkOutboundRow.constraint_name) ∧
        ∀ d ∈ group_fk_outbound rows,
          d.columns =
            (rows.filter fun r => decide (r.constraint_name = d.name)).map
              fun r => { column := r.column_name,
                         references := r.referenced_column }) ∧
    (∀ rows : List FkInboundRow,
        (group_fk_inbound rows).map FkInboundDescriptor.name =
          firstSeen (rows.map FkInboundRow.constraint_name) ∧
        ∀ d ∈ group_fk_inbound rows,
          d.columns =
            (rows.filter fun r => decide (r.constraint_name = d.name)).map
              fun r => { column := r.referencing_column,
                         references := r.referenced_column }) ∧
    group_indexes
        [⟨some "A", "NONCLUSTERED", false, false, false, 1, "x"⟩,
         ⟨some "B", "NONCLUSTERED", false, false, false, 1, "y"⟩,
         ⟨some "A", "NONCLUSTERED", false, false, false, 2, "z"⟩] =
      [⟨"A", "NONCLUSTERED", false, false,
        [⟨"x", 1, false⟩, ⟨"z", 2, false⟩]⟩,
       ⟨"B", "NONCLUSTERED", false, false, [⟨"y", 1, false⟩]⟩] := by
  refine ⟨fun rows => ⟨?_, fun d hd => ?_⟩,
    fun rows => ⟨?_, fun d hd => ?_⟩,
    fun rows => ⟨?_, fun d hd => ?_⟩, ?_⟩
  · exact groupRows_map_dname (fun r : IndexRow => effectiveIndexName r.index_name)
      IndexDescriptor.name
      (fun (k : String) (r : IndexRow) =>
        ({ name := k, type := r.type_desc,
           is_primary_key := r.is_primary_key,
           is_unique := r.is_unique, columns := [] } : IndexDescriptor))
      (fun d c => { d with columns := d.columns ++ [c] })
      indexColumnOfRow (fun k r => rfl) (fun d c => rfl) rows
  · exact groupRows_columns (fun r : IndexRow => effectiveIndexName r.index_name)
      IndexDescriptor.name
      (fun (k : String) (r : IndexRow) =>
        ({ name := k, type := r.type_desc,
           is_primary_key := r.is_primary_key,
           is_unique := r.is_unique, columns := [] } : IndexDescriptor))
      (fun d c => { d with columns := d.columns ++ [c] })
      indexColumnOfRow IndexDescriptor.columns
      (fun k r => rfl) (fun k r => rfl) (fun d c => rfl) (fun d c => rfl)
      rows d hd
  · exact groupRows_map_dname FkOutboundRow.constraint_name
      FkOutboundDescriptor.name
      (fun (k : String) (r : FkOutboundRow) =>
        ({ name := k, target_schema := r.referenced_schema,
           target_table := r.referenced_table,
           columns := [] } : FkOutboundDescriptor))
      (fun d c => { d with columns := d.columns ++ [c] })
      (fun r => { column := r.column_name,
                  references := r.referenced_column })
      (fun k r => rfl) (fun d c => rfl) rows
  · exact groupRows_columns FkOutboundRow.constraint_name
      FkOutboundDescriptor.name
      (fun (k : String) (r : FkOutboundRow) =>
        ({ name := k, target_schema := r.referenced_schema,
           target_table := r.referenced_table,
           columns := [] } : FkOutboundDescriptor))
      (fun d c => { d with columns := d.columns ++ [c] })
      (fun r => { column := r.column_name,
                  references := r.referenced_column })
      FkOutboundDescriptor.columns
      (fun k r => rfl) (fun k r => rfl) (fun d c => rfl) (fun d c => rfl)
      rows d hd
  · exact groupRows_map_dname FkInboundRow.constraint_name
      FkInboundDescriptor.name
      (fun (k : String) (r : FkInboundRow) =>
        ({ name := k, source_schema := r.referencing_schema,
           source_table := r.referencing_table,
           columns := [] } : FkInboundDescriptor))
      (fun d c => { d with columns := d.columns ++ [c] })
      (fun r => { column := r.referencing_column,
                  references := r.referenced_column })
      (fun k r => rfl) (fun d c => rfl) rows
  · exact groupRows_columns FkInboundRow.constraint_name
      FkInboundDescriptor.name
      (fun (k : String) (r : FkInboundRow) =>
        ({ name := k, source_schema := r.referencing_schema,
           source_table := r.referencing_table,
           columns := [] } : FkInboundDescriptor))
      (fun d c => { d with columns := d.columns ++ [c] })
      (fun r => { column := r.referencing_column,
                  references := r.referenced_column })
      FkInboundDescriptor.columns
      (fun k r => rfl) (fun k r => rfl) (fun d c => rfl) (fun d c => rfl)
      rows d hd
  · rfl

/-- Witness for C3: the "A" descriptor of the concrete example is in the
grouped output and its column list filters the rows with key "A" in
arrival order. -/
theorem c3_witness :
    (⟨"A", "NONCLUSTERED", false, false,
        [⟨"x", 1, false⟩, ⟨"z", 2, false⟩]⟩ : IndexDescriptor) ∈
      group_indexes
        [⟨some "A", "NONCLUSTERED", false, false, false, 1, "x"⟩,
         ⟨some "B", "NONCLUSTERED", false, false, false, 1, "y"⟩,
         ⟨some "A", "NONCLUSTERED", false, false, false, 2, "z"⟩] ∧
    (⟨"A", "NONCLUSTERED", false, false,
        [⟨"x", 1, false⟩, ⟨"z", 2, false⟩]⟩ : IndexDescriptor).columns =
      (([⟨some "A", "NONCLUSTERED", false, false, false, 1, "x"⟩,
         ⟨some "B", "NONCLUSTERED", false, false, false, 1, "y"⟩,
         ⟨some "A", "NONCLUSTERED", false, false, false, 2, "z"⟩] :
          List IndexRow).filter fun r =>
        decide (effectiveIndexName r.index_name = "A")).map
        indexColumnOfRow :=
  ⟨by decide,
    (c3_order_preserving_grouping.1
      [⟨some "A", "NONCLUSTERED", false, false, false, 1, "x"⟩,
       ⟨some "B", "NONCLUSTERED", false, false, false, 1, "y"⟩,
       ⟨some "A", "NONCLUSTERED", false, false, false, 2, "z"⟩]).2
      ⟨"A", "NONCLUSTERED", false, false,
        [⟨"x", 1, false⟩, ⟨"z", 2, false⟩]⟩ (by decide)⟩

/-- C9: Unnamed-index placeholder: an index catalog row whose name field is
null or empty is grouped under the literal name `"(unnamed)"`, and a run of
rows all lacking a name produces exactly one descriptor, keyed
`"(unnamed)"`. -/
theorem c9_unnamed_index_placeholder :
    (∀ n : Option String, (n = none ∨ n = some "") →
        effectiveIndexName n = "(unnamed)") ∧
    (∀ rows : List IndexRow, rows ≠ [] →
        (∀ r ∈ rows, r.index_name = none ∨ r.index_name = some "") →
        (group_indexes rows).map IndexDescriptor.name = ["(unnamed)"]) := by
  constructor
  · rintro n (rfl | rfl) <;> rfl
  · intro rows hne hall
    have h1 : (group_indexes rows).map IndexDescriptor.name =
        firstSeen (rows.map fun r => effectiveIndexName r.index_name) :=
      groupRows_map_dname (fun r : IndexRow => effectiveIndexName r.index_name)
        IndexDescriptor.name
        (fun (k : String) (r : IndexRow) =>
          ({ name := k, type := r.type_desc,
             is_primary_key := r.is_primary_key,
             is_unique := r.is_unique, columns := [] } : IndexDescriptor))
        (fun d c => { d with columns := d.columns ++ [c] })
        indexColumnOfRow (fun k r => rfl) (fun d c => rfl) rows
    rw [h1]
    apply firstSeen_const
    · simpa using hne
    · intro s hs
      rcases List.mem_map.mp hs with ⟨r, hr, rfl⟩
      rcases hall r hr with h | h <;> simp [h, effectiveIndexName]

/-- Witness for C9 at two nameless rows (one null name, one empty name). -/
theorem c9_witness :
    (group_indexes
        [⟨none, "HEAP", false, false, false, 0, "x"⟩,
         ⟨some "", "HEAP", false, false, true, 0, "y"⟩]).map
      IndexDescriptor.name = ["(unnamed)"] :=
  c9_unnamed_index_placeholder.2
    [⟨none, "HEAP", false, false, false, 0, "x"⟩,
     ⟨some "", "HEAP", false, false, true, 0, "y"⟩]
    (by decide) (by decide)

end MssqlMcp
